import Mathlib

/-!
Verification development for the Globed game server core
(connection handler, game session, event codec, trigger engine).

The Rust sources under src/ are shallowly embedded:

* machine integers are represented by Nat and Int with explicit
  wrapping (i32 values are Int in the range [-2^31, 2^31));
* f32 values are represented by their 32-bit IEEE-754 bit pattern
  (a Nat below 2^32); this representation is a bijection, the
  purely bit-moving codec is exact on it, and the bit-level
  predicates used by the code (finiteness, comparison with 0.0)
  are computed exactly on the pattern.  The four arithmetic
  operations of the trigger engine (f32 multiply/divide and the
  int<->float casts) are kept abstract in an F32Arith record,
  since IEEE-754 rounding is out of scope of the embedding;
* the concurrent hash maps (DashMap, FxHashMap) are embedded as
  association lists with unique keys; iteration order of a map is
  the list order (the claims proved below do not depend on a
  particular order);
* fallible code returns Except.
-/

namespace Globed

/-- Interpret a 32-bit pattern (a Nat) as a signed i32 value, as Rust
does when casting u32 to i32. -/
def toI32 (n : Nat) : Int :=
  if n % 4294967296 < 2147483648 then ((n % 4294967296 : Nat) : Int)
  else ((n % 4294967296 : Nat) : Int) - 4294967296

/-- The 32-bit pattern of an i32 value (Rust cast i32 to u32). -/
def toU32 (i : Int) : Nat :=
  (i % 4294967296).toNat

/-- Rust i32 wrapping arithmetic: reduce an Int into [-2^31, 2^31). -/
def wrapI32 (i : Int) : Int :=
  toI32 (toU32 i)

/-- Rust sign-extending cast from i32 to u64: the low 64 bits of the
two's-complement representation. -/
def i32AsU64 (i : Int) : Nat :=
  (i % 18446744073709551616).toNat

/-- Association-list embedding of a hash map: point lookup. -/
def mapLookup {κ ν : Type} [DecidableEq κ] : List (κ × ν) → κ → Option ν
  | [], _ => none
  | (k, v) :: rest, key => if k = key then some v else mapLookup rest key

/-- Association-list embedding of a hash map: insert-or-replace
(DashMap / FxHashMap insert). An existing key keeps its position,
a fresh key is appended. -/
def mapInsert {κ ν : Type} [DecidableEq κ] : List (κ × ν) → κ → ν → List (κ × ν)
  | [], key, val => [(key, val)]
  | (k, v) :: rest, key, val =>
    if k = key then (key, val) :: rest else (k, v) :: mapInsert rest key val

/-- Association-list embedding of a hash map: remove. -/
def mapRemove {κ ν : Type} [DecidableEq κ] : List (κ × ν) → κ → List (κ × ν)
  | [], _ => []
  | (k, v) :: rest, key =>
    if k = key then rest else (k, v) :: mapRemove rest key

@[simp]
theorem mapLookup_nil {κ ν : Type} [DecidableEq κ] (key : κ) :
    mapLookup ([] : List (κ × ν)) key = none := rfl

theorem mapLookup_insert_self {κ ν : Type} [DecidableEq κ]
    (m : List (κ × ν)) (key : κ) (val : ν) :
    mapLookup (mapInsert m key val) key = some val := by
  induction m with
  | nil => simp [mapInsert, mapLookup]
  | cons hd tl ih =>
    obtain ⟨k, v⟩ := hd
    by_cases h : k = key
    · simp [mapInsert, mapLookup, h]
    · simp [mapInsert, mapLookup, h, ih]

theorem mapLookup_insert_ne {κ ν : Type} [DecidableEq κ]
    (m : List (κ × ν)) (key other : κ) (val : ν) (hne : key ≠ other) :
    mapLookup (mapInsert m key val) other = mapLookup m other := by
  induction m with
  | nil => simp [mapInsert, mapLookup, hne]
  | cons hd tl ih =>
    obtain ⟨k, v⟩ := hd
    by_cases h : k = key
    · subst h
      simp [mapInsert, mapLookup, hne]
    · simp [mapInsert, mapLookup, h, ih]

theorem mapLookup_remove_self {κ ν : Type} [DecidableEq κ]
    (m : List (κ × ν)) (key : κ) (hnd : (m.map Prod.fst).Nodup) :
    mapLookup (mapRemove m key) key = none := by
  induction m with
  | nil => simp [mapRemove]
  | cons hd tl ih =>
    obtain ⟨k, v⟩ := hd
    simp only [List.map_cons, List.nodup_cons] at hnd
    by_cases h : k = key
    · subst h
      simp only [mapRemove, if_pos rfl]
      -- the key occurs nowhere in the tail
      clear ih
      induction tl with
      | nil => simp [mapLookup]
      | cons hd2 tl2 ih2 =>
        obtain ⟨k2, v2⟩ := hd2
        simp only [List.map_cons, List.mem_cons, List.nodup_cons] at hnd
        have hk2 : k2 ≠ k := fun h2 => hnd.1 (Or.inl h2.symm)
        simp only [mapLookup, if_neg hk2]
        exact ih2 ⟨fun hm => hnd.1 (Or.inr hm), hnd.2.2⟩
    · simp only [mapRemove, if_neg h, mapLookup, if_neg h]
      exact ih hnd.2

theorem mapLookup_remove_ne {κ ν : Type} [DecidableEq κ]
    (m : List (κ × ν)) (key other : κ) (hne : key ≠ other) :
    mapLookup (mapRemove m key) other = mapLookup m other := by
  induction m with
  | nil => simp [mapRemove]
  | cons hd tl ih =>
    obtain ⟨k, v⟩ := hd
    by_cases h : k = key
    · subst h
      simp [mapRemove, mapLookup, hne, Ne.symm hne]
    · simp [mapRemove, mapLookup, h, ih]

theorem mapInsert_length_le {κ ν : Type} [DecidableEq κ]
    (m : List (κ × ν)) (key : κ) (val : ν) :
    (mapInsert m key val).length ≤ m.length + 1 := by
  induction m with
  | nil => simp [mapInsert]
  | cons hd tl ih =>
    obtain ⟨k, v⟩ := hd
    by_cases h : k = key
    · simp [mapInsert, h]
    · simp only [mapInsert, if_neg h, List.length_cons]
      omega

theorem mapLookup_mem_keys {κ ν : Type} [DecidableEq κ]
    (m : List (κ × ν)) (key : κ) (val : ν)
    (h : mapLookup m key = some val) : key ∈ m.map Prod.fst := by
  induction m with
  | nil => simp [mapLookup] at h
  | cons hd tl ih =>
    obtain ⟨k, v⟩ := hd
    by_cases hk : k = key
    · subst hk; simp
    · simp only [mapLookup, if_neg hk] at h
      simp [ih h]

instance exceptDecEq {ε α : Type} [DecidableEq ε] [DecidableEq α] :
    DecidableEq (Except ε α) := fun x y =>
  match x, y with
  | .ok a, .ok b => decidable_of_iff (a = b) (by simp)
  | .error a, .error b => decidable_of_iff (a = b) (by simp)
  | .ok _, .error _ => isFalse (by simp)
  | .error _, .ok _ => isFalse (by simp)

/-- IEEE-754 single-precision finiteness test, computed exactly on the bit
pattern: an f32 is finite iff its exponent field is not all ones
(Rust f32::is_finite). -/
def f32IsFinite (b : Nat) : Bool :=
  ((b >>> 23) &&& 255) != 255

/-- Exact bit-level test for the f32 comparison with 0.0: x != 0.0
holds iff the bit pattern is not one of the two zeros (NaN compares
not-equal, and NaN patterns have a nonzero mantissa, so the test is
exact for every pattern). -/
def f32NeZero (b : Nat) : Bool :=
  (b &&& 0x7fffffff) != 0

/-- The f32 arithmetic the trigger engine uses, kept abstract:
multiply and divide on bit patterns, and the two casts
(i32 to f32, and the saturating Rust cast f32 as i32).
IEEE-754 rounding itself is out of scope of the embedding; every
theorem quantifying over this record holds for the real operations. -/
structure F32Arith where
  mul : Nat → Nat → Nat
  div : Nat → Nat → Nat
  i32ToF32 : Int → Nat
  f32ToI32 : Nat → Int

theorem mapLookup_map_value {κ ν ν' : Type} [DecidableEq κ]
    (m : List (κ × ν)) (f : ν → ν') (key : κ) :
    mapLookup (m.map (fun p => (p.1, f p.2))) key = (mapLookup m key).map f := by
  induction m with
  | nil => simp [mapLookup]
  | cons hd tl ih =>
    obtain ⟨k, v⟩ := hd
    by_cases h : k = key
    · simp [mapLookup, h]
    · simp [mapLookup, h, ih]

/-! Event type ids, from src/src/events (the shared ids module is not
under src/, so the values missing from the legacy copy in
src/src/event.rs are modelled from the spec). -/

def EVENT_GLOBED_BASE : Nat := 0xf000
def EVENT_COUNTER_CHANGE : Nat := 0xf001
def EVENT_PLAYER_JOIN : Nat := 0xf002
def EVENT_PLAYER_LEAVE : Nat := 0xf003
def EVENT_SCR_SPAWN_GROUP : Nat := 0xf010
def EVENT_SCR_SET_ITEM : Nat := 0xf011
def EVENT_SCR_REQUEST_SCRIPT_LOGS : Nat := 0xf012
def EVENT_SCR_MOVE_GROUP : Nat := 0xf013
def EVENT_SCR_MOVE_GROUP_ABSOLUTE : Nat := 0xf014
def EVENT_SCR_FOLLOW_PLAYER : Nat := 0xf015

/-- Modelled from the spec: the follow-rotation id is declared in the
events ids module, which is not under src/; the spec only places it in
the built-in range after follow-player. Any value at or above 0xF000
distinct from the other ids gives the same behaviour. -/
def EVENT_SCR_FOLLOW_ROTATION : Nat := 0xf016

def EVENT_2P_LINK_REQUEST : Nat := 0xf100
def EVENT_2P_UNLINK : Nat := 0xf101

/-- Modelled from the spec: the switcheroo full-state id is declared in
the events ids module, which is not under src/; the spec only places it
in the built-in range. -/
def EVENT_SWITCHEROO_FULL_STATE : Nat := 0xf200

/-- Modelled from the spec: the switcheroo switch id is declared in the
events ids module, which is not under src/. -/
def EVENT_SWITCHEROO_SWITCH : Nat := 0xf201

/-- CounterChangeType from src/src/events/mod.rs; the f32 payloads of
Multiply and Divide are carried as their 32-bit patterns. -/
inductive CounterChangeType where
  | set (v : Int)
  | add (v : Int)
  | multiply (bits : Nat)
  | divide (bits : Nat)
  deriving DecidableEq, Repr

/-- CounterChangeEvent from src/src/events/mod.rs (field r#type is
called ty here). -/
structure CounterChangeEvent where
  item_id : Nat
  ty : CounterChangeType
  deriving DecidableEq, Repr

/-- IntOrFloat from src/src/events/mod.rs, the float as its pattern. -/
inductive IntOrFloat where
  | int (v : Int)
  | float (bits : Nat)
  deriving DecidableEq, Repr

/-- SpawnInfo from src/src/events/out.rs (u16 fields as Nat, f32 fields
as their patterns). -/
structure SpawnInfo where
  group_id : Nat
  delay : Nat
  delay_variance : Nat
  ordered : Bool
  remaps : List Nat
  deriving DecidableEq, Repr

/-- OutEvent from src/src/events/out.rs. -/
inductive OutEvent where
  | counterChange (ev : CounterChangeEvent)
  | spawnGroup (info : SpawnInfo)
  | setItem (item_id : Nat) (value : Int)
  | moveGroup (group : Nat) (dx dy : Nat)
  | moveGroupAbsolute (group center : Nat) (x y : Nat)
  | followPlayer (player_id : Int) (group : Nat) (enable : Bool)
  | followRotation (player_id : Int) (group center : Nat) (enable : Bool)
  | twoPlayerLinkRequest (player_id : Int) (player1 : Bool)
  | twoPlayerUnlink (player_id : Int)
  | switcherooFullState (active_player : Int) (flags : Nat)
  | switcherooSwitch (player : Int) (ty : Nat)
  deriving DecidableEq, Repr

/-- InEvent from src/src/events/in.rs (heapless arg vector as a list;
its capacity bound of 5 is enforced by decode). -/
inductive InEvent where
  | counterChange (ev : CounterChangeEvent)
  | playerJoin (player_id : Int)
  | playerLeave (player_id : Int)
  | scripted (ty : Nat) (args : List IntOrFloat)
  | requestScriptLogs
  | twoPlayerLinkRequest (player_id : Int) (player1 : Bool)
  | twoPlayerUnlink (player_id : Int)
  | switcherooFullState (active_player : Int) (flags : Nat)
  | switcherooSwitch (player : Int) (ty : Nat)
  deriving DecidableEq, Repr

def OutEvent.type_int : OutEvent → Nat
  | .counterChange _ => EVENT_COUNTER_CHANGE
  | .spawnGroup _ => EVENT_SCR_SPAWN_GROUP
  | .setItem _ _ => EVENT_SCR_SET_ITEM
  | .moveGroup _ _ _ => EVENT_SCR_MOVE_GROUP
  | .moveGroupAbsolute _ _ _ _ => EVENT_SCR_MOVE_GROUP_ABSOLUTE
  | .followPlayer _ _ _ => EVENT_SCR_FOLLOW_PLAYER
  | .followRotation _ _ _ _ => EVENT_SCR_FOLLOW_ROTATION
  | .twoPlayerLinkRequest _ _ => EVENT_2P_LINK_REQUEST
  | .twoPlayerUnlink _ => EVENT_2P_UNLINK
  | .switcherooFullState _ _ => EVENT_SWITCHEROO_FULL_STATE
  | .switcherooSwitch _ _ => EVENT_SWITCHEROO_SWITCH

/-! Byte stream model of the qunet ByteWriter / ByteReader library
(out of scope of the repository, specified as little-endian primitive
writes; a byte is a Nat below 256). -/

def u16Bytes (n : Nat) : List Nat :=
  [n % 256, n / 256 % 256]

def u32Bytes (n : Nat) : List Nat :=
  [n % 256, n / 256 % 256, n / 65536 % 256, n / 16777216 % 256]

def u64Bytes (n : Nat) : List Nat :=
  u32Bytes (n % 4294967296) ++ u32Bytes (n / 4294967296)

def i32Bytes (i : Int) : List Nat :=
  u32Bytes (toU32 i)

def boolBytes (b : Bool) : List Nat :=
  [if b then 1 else 0]

/-- LEB128 variable-length unsigned integer (qunet write_varuint). -/
def varuintBytes (n : Nat) : List Nat :=
  if h : n < 128 then [n]
  else (n % 128 + 128) :: varuintBytes (n / 128)
decreasing_by
  exact Nat.div_lt_self (by omega) (by omega)

/-- Zigzag LEB128 signed integer (qunet write_varint, modelled with the
conventional zigzag transform; no proved claim depends on it). -/
def varintBytes (i : Int) : List Nat :=
  varuintBytes (if 0 ≤ i then (2 * i).toNat else (-2 * i - 1).toNat)

/-- Decode errors (DataDecodeError from server_shared, restricted to
the kinds the event codec produces; reader exhaustion is truncated). -/
inductive DecodeError where
  | validationFailed
  | truncated
  deriving DecidableEq, Repr

/-- Little-endian value of a byte list (each entry taken mod 256, as
the wire carries u8). -/
def fromLE : List Nat → Nat
  | [] => 0
  | b :: rest => b % 256 + 256 * fromLE rest

def readU8 : List Nat → Except DecodeError (Nat × List Nat)
  | [] => .error .truncated
  | b :: rest => .ok (b % 256, rest)

def readUInt (k : Nat) (bytes : List Nat) : Except DecodeError (Nat × List Nat) :=
  if k ≤ bytes.length then .ok (fromLE (bytes.take k), bytes.drop k)
  else .error .truncated

def readU16 (bytes : List Nat) : Except DecodeError (Nat × List Nat) :=
  readUInt 2 bytes

def readU32 (bytes : List Nat) : Except DecodeError (Nat × List Nat) :=
  readUInt 4 bytes

def readU64 (bytes : List Nat) : Except DecodeError (Nat × List Nat) :=
  readUInt 8 bytes

def readI32 (bytes : List Nat) : Except DecodeError (Int × List Nat) :=
  (readU32 bytes).map (fun p => (toI32 p.1, p.2))

def readBool (bytes : List Nat) : Except DecodeError (Bool × List Nat) :=
  (readU8 bytes).map (fun p => (p.1 != 0, p.2))

/-- EventEncodeError from src/src/events/mod.rs (the writer-overflow
variant cannot arise in the list model). -/
inductive EventEncodeError where
  | invalidData
  deriving DecidableEq, Repr

/-- OutEvent::encode from src/src/events/out.rs, producing the payload
byte stream the writer receives. -/
def OutEvent.encode : OutEvent → Except EventEncodeError (List Nat)
  | .counterChange ev =>
    let raw_type : Nat :=
      match ev.ty with
      | .set _ => 0
      | .add _ => 1
      | .multiply _ => 2
      | .divide _ => 3
    let item_id := (ev.item_id) &&& 0xffffff
    -- Rust: `val as u64` on an i32 sign-extends; `val.to_bits() as u64`
    -- on an f32 zero-extends.
    let value : Nat :=
      match ev.ty with
      | .set v => i32AsU64 v
      | .add v => i32AsU64 v
      | .multiply bits => bits
      | .divide bits => bits
    let packed := (raw_type <<< 56) ||| (item_id <<< 32) ||| value
    .ok (u64Bytes packed)
  | .spawnGroup info =>
    let withDelay := f32NeZero info.delay
    let withVariance := withDelay && f32NeZero info.delay_variance
    let withRemaps := !info.remaps.isEmpty
    if withRemaps && (decide (info.remaps.length > 510) || !(decide (info.remaps.length % 2 = 0))) then
      .error .invalidData
    else
      let flags : Nat :=
        (if withDelay then 1 else 0) |||
        (if withVariance then 2 else 0) |||
        (if info.ordered then 4 else 0) |||
        (if withRemaps then 8 else 0)
      let body :=
        varuintBytes info.group_id ++
        (if withDelay then
          u32Bytes info.delay ++ (if withVariance then u32Bytes info.delay_variance else [])
        else []) ++
        (if withRemaps then
          (info.remaps.length / 2) % 256 ::
            (info.remaps.map (fun k => varuintBytes k)).flatten
        else [])
      .ok (flags :: body)
  | .setItem item_id value => .ok (varuintBytes item_id ++ varintBytes value)
  | .moveGroup group dx dy => .ok (varuintBytes group ++ u32Bytes dx ++ u32Bytes dy)
  | .moveGroupAbsolute group center x y =>
    .ok (varuintBytes group ++ varuintBytes center ++ u32Bytes x ++ u32Bytes y)
  | .followPlayer player_id group enable =>
    let group := if enable then group ||| 0x8000 else group &&& 0x7fff
    .ok (u16Bytes group ++ i32Bytes player_id)
  | .followRotation player_id group center enable =>
    let group := if enable then group ||| 0x8000 else group &&& 0x7fff
    .ok (u16Bytes group ++ u16Bytes center ++ i32Bytes player_id)
  | .twoPlayerLinkRequest player_id player1 =>
    .ok (i32Bytes player_id ++ boolBytes player1)
  | .twoPlayerUnlink player_id => .ok (i32Bytes player_id)
  | .switcherooFullState active_player flags =>
    .ok (i32Bytes active_player ++ [flags % 256])
  | .switcherooSwitch player ty => .ok (i32Bytes player ++ [ty % 256])

/-- One argument of a scripted event: the MSB-first bit of the type
byte at the argument index selects float (the 4-byte pattern as read)
or i32. -/
def scriptedArg (typeByte i w : Nat) : IntOrFloat :=
  if (typeByte >>> (7 - i)) &&& 1 = 1 then IntOrFloat.float w
  else IntOrFloat.int (toI32 w)

/-- The argument-reading loop of InEvent::decode for scripted events. -/
def readScriptedArgs (typeByte : Nat) :
    Nat → Nat → List Nat → Except DecodeError (List IntOrFloat × List Nat)
  | 0, _, bytes => .ok ([], bytes)
  | count + 1, i, bytes => do
    let (w, rest) ← readU32 bytes
    let arg := scriptedArg typeByte i w
    let (args, rest2) ← readScriptedArgs typeByte count (i + 1) rest
    pure (arg :: args, rest2)

/-- InEvent::decode from src/src/events/in.rs: the u16 type id has
already been consumed by the caller, the payload is read from the
stream and the rest of the stream is returned. -/
def InEvent.decode (ty : Nat) (bytes : List Nat) :
    Except DecodeError (InEvent × List Nat) :=
  if ty = EVENT_COUNTER_CHANGE then
    match readU64 bytes with
    | .error e => .error e
    | .ok (data, rest) =>
      let raw_type := data >>> 56
      let item_id := (data >>> 32) &&& 0xffffff
      let raw_value := data &&& 0xffffffff
      match raw_type with
      | 0 => .ok (.counterChange ⟨item_id, .set (toI32 raw_value)⟩, rest)
      | 1 => .ok (.counterChange ⟨item_id, .add (toI32 raw_value)⟩, rest)
      | 2 => .ok (.counterChange ⟨item_id, .multiply raw_value⟩, rest)
      | 3 => .ok (.counterChange ⟨item_id, .divide raw_value⟩, rest)
      | _ => .error .validationFailed
  else if ty = EVENT_SCR_REQUEST_SCRIPT_LOGS then
    .ok (.requestScriptLogs, bytes)
  else if ty = EVENT_2P_LINK_REQUEST then do
    let (player_id, r) ← readI32 bytes
    let (player1, r2) ← readBool r
    pure (.twoPlayerLinkRequest player_id player1, r2)
  else if ty = EVENT_2P_UNLINK then do
    let (player_id, r) ← readI32 bytes
    pure (.twoPlayerUnlink player_id, r)
  else if ty = EVENT_SWITCHEROO_FULL_STATE then do
    let (player_id, r) ← readI32 bytes
    let (flags, r2) ← readU8 r
    pure (.switcherooFullState player_id flags, r2)
  else if ty = EVENT_SWITCHEROO_SWITCH then do
    let (player, r) ← readI32 bytes
    let (t, r2) ← readU8 r
    pure (.switcherooSwitch player t, r2)
  else if ty < EVENT_GLOBED_BASE then do
    let (count, r) ← readU8 bytes
    if count > 5 then .error .validationFailed
    else do
      let (typeByte, r2) ← readU8 r
      let (args, r3) ← readScriptedArgs typeByte count 0 r2
      pure (.scripted ty args, r3)
  else .error .validationFailed

/-- PlayerState from src/src/player_state.rs. Only account_id is ever
inspected by the handler and session logic verified here; the remaining
decoded per-frame fields (timestamps, player objects, physics record)
are collapsed into the opaque field rest, which the embedding stores
and moves but never reads. -/
structure PlayerState where
  account_id : Int
  rest : Nat
  deriving DecidableEq, Repr

instance : Inhabited PlayerState := ⟨⟨0, 0⟩⟩

/-- UnreadValue from src/src/session_manager.rs. -/
structure UnreadValue where
  value : Int
  prio : Nat
  deriving DecidableEq, Repr

/-- GamePlayerState from src/src/session_manager.rs; the FxHashMap of
unread counter values is an association list (iteration order = list
order), the VecDeque of unread events a list whose head is the front. -/
structure GamePlayerState where
  state : PlayerState
  unread_counter_values : List (Nat × UnreadValue)
  unread_events : List OutEvent
  prio_counter : Nat
  wants_hidden : Bool
  deriving DecidableEq, Repr

instance : Inhabited GamePlayerState := ⟨⟨default, [], [], 0, false⟩⟩

/-- GamePlayerState::push_event: drop-new on overflow at 512. -/
def GamePlayerState.push_event (p : GamePlayerState) (event : OutEvent) : GamePlayerState :=
  if 512 ≤ p.unread_events.length then p
  else { p with unread_events := p.unread_events ++ [event] }

/-- GamePlayerState::push_counter_change: drop-new on overflow at 1024,
otherwise bump the wrapping usize prio counter and insert-or-replace
the entry for the item. -/
def GamePlayerState.push_counter_change (p : GamePlayerState) (item_id : Nat) (value : Int) :
    GamePlayerState :=
  if 1024 ≤ p.unread_counter_values.length then p
  else
    let prio := (p.prio_counter + 1) % 18446744073709551616
    { p with
      prio_counter := prio,
      unread_counter_values := mapInsert p.unread_counter_values item_id ⟨value, prio⟩ }

/-- The (item, value, prio) triples of a slice of the unread-counter
map, as pop_counter_changes returns them. -/
def toTriples (l : List (Nat × UnreadValue)) : List (Nat × Int × Nat) :=
  l.map (fun q => (q.1, q.2.value, q.2.prio))

/-- GamePlayerState::pop_counter_changes: the retain walk removes the
first limit entries in iteration order and returns them as
(item, value, prio) triples, keeping the rest. -/
def GamePlayerState.pop_counter_changes (p : GamePlayerState) (limit : Nat) :
    List (Nat × Int × Nat) × GamePlayerState :=
  (toTriples (p.unread_counter_values.take limit),
   { p with unread_counter_values := p.unread_counter_values.drop limit })

/-- Ordering of drained counter changes by their prio stamp
(sort_by_key on the third component). -/
def prioLE (a b : Nat × Int × Nat) : Prop := a.2.2 ≤ b.2.2

instance : DecidableRel prioLE :=
  fun a b => inferInstanceAs (Decidable (a.2.2 ≤ b.2.2))

instance : IsTotal (Nat × Int × Nat) prioLE := ⟨fun a b => Nat.le_total a.2.2 b.2.2⟩

instance : IsTrans (Nat × Int × Nat) prioLE := ⟨fun _ _ _ => Nat.le_trans⟩

/-- Stable ascending sort by prio: slice sort_by_key in
GameSession::update_player. -/
def sortByPrio (l : List (Nat × Int × Nat)) : List (Nat × Int × Nat) :=
  List.insertionSort prioLE l

/-- MAX_EVENT_COUNT from src/src/handler.rs. -/
def MAX_EVENT_COUNT : Nat := 64

/-- The outbound form of a drained counter change inside
GameSession::update_player: SetItem when scripting is active,
CounterChange(Set) otherwise. -/
def emitEvent (scripting : Bool) (c : Nat × Int × Nat) : OutEvent :=
  if scripting then OutEvent.setItem c.1 c.2.1
  else OutEvent.counterChange ⟨c.1, CounterChangeType.set c.2.1⟩

/-- GameSession from src/src/session_manager.rs. The concurrent maps
are association lists, created_at is dropped (wall-clock time is not
embedded; the script log stamp becomes a parameter), the set-once
scripting handle is reduced to its presence flag, and the trigger
manager is inlined as its value map. -/
structure GameSession where
  id : Nat
  owner : Int
  platformer : Bool
  players : List (Int × GamePlayerState)
  counters : List (Nat × Int)
  player_ids : List Int
  triggers : List (Nat × Int)
  has_scripting : Bool
  logs : List String
  deriving DecidableEq, Repr

/-- GameSession::new. -/
def GameSession.new (id : Nat) (owner : Int) (platformer : Bool) : GameSession :=
  { id, owner, platformer, players := [], counters := [], player_ids := [],
    triggers := [], has_scripting := false, logs := [] }

/-- TriggerManager::handle_change from src/src/trigger_manager.rs:
entry or_insert(0), then mutate per the change type, returning the item
id and the value now stored. -/
def TriggerManager.handle_change (ar : F32Arith) (values : List (Nat × Int))
    (ev : CounterChangeEvent) : List (Nat × Int) × Nat × Int :=
  let cur := (mapLookup values ev.item_id).getD 0
  let newVal : Int :=
    match ev.ty with
    | .add v => wrapI32 (cur + v)
    | .set v => v
    | .multiply bits =>
      if f32IsFinite bits then ar.f32ToI32 (ar.mul (ar.i32ToF32 cur) bits) else cur
    | .divide bits =>
      if f32NeZero bits && f32IsFinite bits then
        ar.f32ToI32 (ar.div (ar.i32ToF32 cur) bits)
      else cur
  (mapInsert values ev.item_id newVal, (ev.item_id, newVal))

/-- GameSession::add_player: default state carrying the account id,
seeded with a counter change for every entry of the authoritative
counter snapshot, then inserted into both the player map and the
parallel id set. -/
def GameSession.add_player (s : GameSession) (player_id : Int) (wants_hidden : Bool) :
    GameSession :=
  let state0 : GamePlayerState :=
    { (default : GamePlayerState) with
      state := { (default : PlayerState) with account_id := player_id },
      wants_hidden }
  let state := s.counters.foldl (fun st ent => st.push_counter_change ent.1 ent.2) state0
  { s with
    players := mapInsert s.players player_id state,
    player_ids := if player_id ∈ s.player_ids then s.player_ids else s.player_ids ++ [player_id] }

/-- GameSession::remove_player. -/
def GameSession.remove_player (s : GameSession) (player_id : Int) : GameSession :=
  { s with
    players := mapRemove s.players player_id,
    player_ids := s.player_ids.filter (fun x => x ≠ player_id) }

/-- The per-participant entry update_player works on:
players.entry(state.account_id).or_default(). -/
def pendingPlayer (s : GameSession) (aid : Int) : GamePlayerState :=
  (mapLookup s.players aid).getD default

/-- The triples pop_counter_changes drains for a participant at a
given limit. -/
def drainedTriples (s : GameSession) (aid : Int) (limit : Nat) : List (Nat × Int × Nat) :=
  toTriples ((pendingPlayer s aid).unread_counter_values.take limit)

/-- The counter-change events update_player emits for a participant at
a given limit: the drained triples sorted by prio and mapped through
the scripting-dependent event form. -/
def counterEmission (s : GameSession) (aid : Int) (limit : Nat) : List OutEvent :=
  (sortByPrio (drainedTriples s aid limit)).map (emitEvent s.has_scripting)

/-- GameSession::update_player: replace the stored state, drain up to
MAX_EVENT_COUNT - out_events.len() counter changes sorted by prio,
emit them as SetItem (scripting) or CounterChange(Set), then drain the
unread-event FIFO while below MAX_EVENT_COUNT. -/
def GameSession.update_player (s : GameSession) (state : PlayerState)
    (out_events : List OutEvent) : GameSession × List OutEvent :=
  let player := pendingPlayer s state.account_id
  let has_scripting := s.has_scripting
  let player := { player with state := state }
  let max_counter_values := MAX_EVENT_COUNT - out_events.length
  let step :=
    if max_counter_values ≠ 0 ∧ player.unread_counter_values ≠ [] then
      let pc := player.pop_counter_changes max_counter_values
      let changes := sortByPrio pc.1
      (pc.2, out_events ++ changes.map (emitEvent has_scripting))
    else (player, out_events)
  let player := step.1
  let out_events := step.2
  let k := MAX_EVENT_COUNT - out_events.length
  let out_events := out_events ++ player.unread_events.take k
  let player := { player with unread_events := player.unread_events.drop k }
  ({ s with players := mapInsert s.players state.account_id player }, out_events)

/-- GameSession::notify_counter_change: value 0 removes from the
authoritative store, otherwise inserts; then every participant gets the
change pushed into their unread-counter map. -/
def GameSession.notify_counter_change (s : GameSession) (item_id : Nat) (value : Int) :
    GameSession :=
  let counters :=
    if value = 0 then mapRemove s.counters item_id else mapInsert s.counters item_id value
  { s with
    counters := counters,
    players := s.players.map (fun p => (p.1, p.2.push_counter_change item_id value)) }

/-- GameSession::push_event to one participant (absent target ignored). -/
def GameSession.push_event (s : GameSession) (player_id : Int) (event : OutEvent) :
    GameSession :=
  match mapLookup s.players player_id with
  | some p => { s with players := mapInsert s.players player_id (p.push_event event) }
  | none => s

/-- GameSession::push_event_to_all. -/
def GameSession.push_event_to_all (s : GameSession) (event : OutEvent) : GameSession :=
  { s with players := s.players.map (fun p => (p.1, p.2.push_event event)) }

/-- GameSession::log_script_message. The elapsed-seconds stamp computed
from created_at is received as the already formatted string (wall-clock
time is outside the embedding); the list head is the queue front
(oldest entry). -/
def GameSession.log_script_message (s : GameSession) (stamp msg : String) : GameSession :=
  if 2048 < s.logs.length then { s with logs := s.logs.drop 1 }
  else { s with logs := s.logs ++ ["[" ++ stamp ++ "] " ++ msg] }

/-- GameSession::pop_script_logs: drain all accumulated logs. -/
def GameSession.pop_script_logs (s : GameSession) : List String × GameSession :=
  (s.logs, { s with logs := [] })

/-- HandlerError from src/src/handler.rs. -/
inductive HandlerError where
  | encoder
  | unauthorized
  | spoofedAccountId
  deriving DecidableEq, Repr

/-- JoinSessionFailedReason (schema-defined; the two reasons the
handler produces). -/
inductive JoinSessionFailedReason where
  | invalidRoom
  | invalidPasscode
  deriving DecidableEq, Repr

/-- CentralRoom from src/src/handler.rs. -/
structure CentralRoom where
  passcode : Nat
  owner : Int
  deriving DecidableEq, Repr

/-- The per-connection client state the handler reads: account id,
authorization, and the session slot (held here as the session id; the
session value lives in the manager map). A client whose account data is
set is authorized, and find_client exposes exactly those entries of the
global account map that are still alive. -/
structure Client where
  account_id : Int
  authorized : Bool
  session_id : Option Nat
  deriving DecidableEq, Repr

/-- The handler-owned shared state the verified message flows touch:
the bridge-fed room registry, the session manager map, and the global
account to client map. -/
structure ServerState where
  all_rooms : List (Nat × CentralRoom)
  sessions : List (Nat × GameSession)
  all_clients : List (Int × Client)
  deriving DecidableEq, Repr

/-- ConnectionHandler::remove_from_session: remove the player from the
session and garbage-collect the session entry when it became empty
(SessionManager::delete_session_if_empty). A session the manager no
longer tracks is only reachable through the Arc and its mutation is
invisible to the model. -/
def remove_from_session (st : ServerState) (account_id : Int) (sid : Nat) : ServerState :=
  match mapLookup st.sessions sid with
  | none => st
  | some sess =>
    let sess := sess.remove_player account_id
    let sessions := mapInsert st.sessions sid sess
    let sessions := if sess.players.isEmpty then mapRemove sessions sid else sessions
    { st with sessions := sessions }

/-- ConnectionHandler::do_handle_event: forward to scripting (out of
scope), then apply the built-in side effects. The ScriptLogs reply of
RequestScriptLogs is a separate reliable send outside the player-data
frame; its session side effect (draining the log queue) is kept. -/
def ConnectionHandler.do_handle_event (ar : F32Arith) (client : Client)
    (session : GameSession) (event : InEvent) : Except HandlerError GameSession :=
  if !client.authorized then .error .unauthorized
  else
    match event with
    | .counterChange cc =>
      let r := TriggerManager.handle_change ar session.triggers cc
      let session := { session with triggers := r.1 }
      .ok (session.notify_counter_change r.2.1 r.2.2)
    | .twoPlayerLinkRequest player_id player1 =>
      .ok (session.push_event player_id
        (.twoPlayerLinkRequest client.account_id (!player1)))
    | .twoPlayerUnlink player_id =>
      .ok (session.push_event player_id (.twoPlayerUnlink client.account_id))
    | .requestScriptLogs =>
      if session.owner ≠ client.account_id then .ok session
      else .ok (session.pop_script_logs).2
    | _ => .ok session

/-- The outbound level-data frame of handle_player_data, at the level
the claims speak about: the encoded neighbour states in iteration
order, the metadata replies (account id per request, 0 as the
placeholder), the event list appended as the event byte stream, and the
chosen delivery mode. -/
structure LevelDataFrame where
  players : List PlayerState
  display_datas : List Int
  events : List OutEvent
  reliable : Bool
  deriving DecidableEq, Repr

/-- The for_every_player encoding walk of handle_player_data: stop
contributing once written_players reaches the snapshot player_count,
skip the entry whose state carries the sender's account id, encode
every other participant. -/
def framePlayersAux (account_id : Int) (player_count : Nat) :
    List (Int × GamePlayerState) → Nat → List PlayerState
  | [], _ => []
  | entry :: rest, written =>
    if written = player_count then
      framePlayersAux account_id player_count rest written
    else if entry.2.state.account_id = account_id then
      framePlayersAux account_id player_count rest written
    else
      entry.2.state :: framePlayersAux account_id player_count rest (written + 1)

/-- The metadata-request reply of handle_player_data: the found
client's account id when the global map has a live entry with account
data, the account_id = 0 placeholder otherwise. -/
def displayReply (st : ServerState) (req : Int) : Int :=
  match mapLookup st.all_clients req with
  | some c => if c.authorized then c.account_id else 0
  | none => 0

/-- ConnectionHandler::handle_player_data from src/src/handler.rs:
authorization gate, spoofed-account-id gate, no-session early return,
inbound event side effects (per-event errors are logged and skipped),
update_player collecting the outbound events, then the frame built by
the culling walk, and reliable delivery exactly when events were
produced. -/
def ConnectionHandler.handle_player_data (ar : F32Arith) (st : ServerState)
    (client : Client) (data : PlayerState) (requests : List Int)
    (events : List InEvent) :
    Except HandlerError (ServerState × Option LevelDataFrame) :=
  if !client.authorized then .error .unauthorized
  else
    let account_id := data.account_id
    if account_id ≠ client.account_id then .error .spoofedAccountId
    else
      match client.session_id.bind (fun sid => mapLookup st.sessions sid) with
      | none => .ok (st, none)
      | some session =>
        let sid := session.id
        let session := events.foldl
          (fun s e =>
            match ConnectionHandler.do_handle_event ar client s e with
            | .ok s2 => s2
            | .error _ => s) session
        let up := session.update_player data []
        let session := up.1
        let out_events := up.2
        let player_count := session.players.length
        let frame : LevelDataFrame :=
          { players := framePlayersAux account_id player_count session.players 0,
            display_datas := requests.map (displayReply st),
            events := out_events,
            reliable := !out_events.isEmpty }
        .ok ({ st with sessions := mapInsert st.sessions sid session }, some frame)

/-- What on_client_data does with the handler result of a PlayerData
message: handler errors are logged at warn and the message dropped;
nothing disconnects the client. -/
structure ClientOutcome where
  state : ServerState
  frame : Option LevelDataFrame
  warned : Bool
  disconnected : Bool
  deriving DecidableEq, Repr

/-- The PlayerData arm of on_client_data composed with its result
handling. -/
def ConnectionHandler.on_player_data_message (ar : F32Arith) (st : ServerState)
    (client : Client) (data : PlayerState) (requests : List Int)
    (events : List InEvent) : ClientOutcome :=
  match ConnectionHandler.handle_player_data ar st client data requests events with
  | .ok r => { state := r.1, frame := r.2, warned := false, disconnected := false }
  | .error _ => { state := st, frame := none, warned := true, disconnected := false }

/-- ConnectionHandler::do_join_session from src/src/handler.rs. The
SessionId::room_id bit extraction lives in the server_shared crate,
which is not under src/; it is received as the abstract projection
roomIdOf (modelled from the spec: a 64-bit session id decomposes into
room_id and level_id, room_id 0 meaning public). handler.rs calls
add_player with the account id only; wants_hidden takes its default. -/
def ConnectionHandler.do_join_session (roomIdOf : Nat → Nat) (st : ServerState)
    (client : Client) (sid : Nat) (passcode : Nat) (platformer : Bool) :
    Except JoinSessionFailedReason (ServerState × Client) :=
  let room_id := roomIdOf sid
  let ownerRes : Except JoinSessionFailedReason Int :=
    if room_id ≠ 0 then
      match mapLookup st.all_rooms room_id with
      | some room =>
        if room.passcode ≠ 0 ∧ room.passcode ≠ passcode then .error .invalidPasscode
        else .ok room.owner
      | none => .error .invalidRoom
    else .ok 0
  match ownerRes with
  | .error e => .error e
  | .ok owner =>
    let new_session := (mapLookup st.sessions sid).getD (GameSession.new sid owner platformer)
    let st := { st with sessions := mapInsert st.sessions sid new_session }
    let old := client.session_id
    let client := { client with session_id := some sid }
    let st :=
      match old with
      | some oldSid => remove_from_session st client.account_id oldSid
      | none => st
    -- add_player mutates the Arc-held session; the manager map sees the
    -- mutation only while it still holds the entry (removing the client
    -- from the session it rejoins can have garbage-collected it)
    let arcSession := (mapLookup st.sessions sid).getD new_session
    let arcSession := arcSession.add_player client.account_id false
    let st :=
      if (mapLookup st.sessions sid).isSome then
        { st with sessions := mapInsert st.sessions sid arcSession }
      else st
    .ok (st, client)

/-- The result of handle_join_session: possibly changed state and
client plus the JoinSessionFailed reply when the join was refused. -/
structure JoinOutcome where
  state : ServerState
  client : Client
  reply : Option JoinSessionFailedReason
  deriving DecidableEq, Repr

/-- ConnectionHandler::handle_join_session: authorization gate, then
do_join_session, a failure being answered with JoinSessionFailed and
leaving all state untouched. -/
def ConnectionHandler.handle_join_session (roomIdOf : Nat → Nat) (st : ServerState)
    (client : Client) (sid : Nat) (passcode : Nat) (platformer : Bool) :
    Except HandlerError JoinOutcome :=
  if !client.authorized then .error .unauthorized
  else
    match ConnectionHandler.do_join_session roomIdOf st client sid passcode platformer with
    | .ok r => .ok { state := r.1, client := r.2, reply := none }
    | .error e => .ok { state := st, client := client, reply := some e }

/-! Theorems. -/

/-- A concrete instance of the abstract f32 arithmetic, used to
instantiate universally quantified theorems at concrete inputs. -/
def arZero : F32Arith :=
  { mul := fun _ _ => 0, div := fun _ _ => 0, i32ToF32 := fun _ => 0,
    f32ToI32 := fun _ => 0 }

/-- C4: TriggerManager::handle_change starts from the stored value
(0 if absent): Set overwrites, Add wraps in i32, Multiply stores the
float product cast to i32 only when the factor is finite, Divide does
the same only when the divisor is finite and non-zero, other counters
are untouched, and the returned pair is the item id with the value now
stored. -/
theorem trigger_handle_change_spec (ar : F32Arith) (values : List (Nat × Int))
    (ev : CounterChangeEvent) :
    (TriggerManager.handle_change ar values ev).2.1 = ev.item_id ∧
    mapLookup (TriggerManager.handle_change ar values ev).1 ev.item_id =
      some (TriggerManager.handle_change ar values ev).2.2 ∧
    (∀ other, other ≠ ev.item_id →
      mapLookup (TriggerManager.handle_change ar values ev).1 other =
        mapLookup values other) ∧
    (TriggerManager.handle_change ar values ev).2.2 =
      (match ev.ty with
        | CounterChangeType.set v => v
        | CounterChangeType.add v =>
          wrapI32 ((mapLookup values ev.item_id).getD 0 + v)
        | CounterChangeType.multiply bits =>
          if f32IsFinite bits = true then
            ar.f32ToI32 (ar.mul (ar.i32ToF32 ((mapLookup values ev.item_id).getD 0)) bits)
          else (mapLookup values ev.item_id).getD 0
        | CounterChangeType.divide bits =>
          if f32IsFinite bits = true ∧ f32NeZero bits = true then
            ar.f32ToI32 (ar.div (ar.i32ToF32 ((mapLookup values ev.item_id).getD 0)) bits)
          else (mapLookup values ev.item_id).getD 0) := by
  obtain ⟨item, ty⟩ := ev
  refine ⟨rfl, ?_, ?_, ?_⟩
  · cases ty <;>
      simp [TriggerManager.handle_change, mapLookup_insert_self]
  · intro other hne
    cases ty <;>
      simpa [TriggerManager.handle_change] using
        mapLookup_insert_ne values item other _ (fun h => hne h.symm)
  · cases ty with
    | set v => rfl
    | add v => rfl
    | multiply bits => rfl
    | divide bits =>
      by_cases hf : f32IsFinite bits = true <;>
        by_cases hz : f32NeZero bits = true <;>
        simp [TriggerManager.handle_change, hf, hz]

/-- Witness for C4 at a concrete input (divisor 2.0f, stored map
[(7, 3)], probing the untouched key 9). -/
theorem trigger_handle_change_spec_witness :
    mapLookup (TriggerManager.handle_change arZero [(7, 3)]
      ⟨7, CounterChangeType.divide 1073741824⟩).1 9 = none := by
  have h := (trigger_handle_change_spec arZero [(7, 3)]
    ⟨7, CounterChangeType.divide 1073741824⟩).2.2.1 9 (by decide)
  rw [h]
  rfl

/-- A session whose script log buffer already holds 2049 entries
(reachable, because the overflow guard fires only above 2048). -/
def fullLogSession : GameSession :=
  { GameSession.new 1 0 false with logs := List.replicate 2049 "x" }

set_option maxRecDepth 4000 in
/-- C9 (code bug): when the log buffer is over the bound,
GameSession::log_script_message pops the oldest entry and then returns
without appending the new message, so the newest message is lost (and
the buffer bound is 2049, not 2048). -/
theorem log_script_message_drops_newest :
    (fullLogSession.log_script_message "1.000" "hello").logs =
      List.replicate 2048 "x" ∧
    "[1.000] hello" ∉ (fullLogSession.log_script_message "1.000" "hello").logs := by
  have hlogs : (fullLogSession.log_script_message "1.000" "hello").logs =
      List.replicate 2048 "x" := by
    rw [GameSession.log_script_message]
    rw [show fullLogSession.logs = List.replicate 2049 "x" from rfl]
    rw [List.length_replicate, if_pos (by norm_num), List.drop_replicate]
  refine ⟨hlogs, ?_⟩
  rw [hlogs]
  intro hmem
  exact absurd (List.mem_replicate.mp hmem).2 (by decide)

/-- C8: an authorized client sending player data whose embedded
account id differs from its own fails with SpoofedAccountId; the state
is untouched (the error is raised before any event side effect), no
frame is sent, and on_client_data only logs a warning, never
disconnecting. -/
theorem player_data_spoof_rejected (ar : F32Arith) (st : ServerState)
    (client : Client) (data : PlayerState) (requests : List Int)
    (events : List InEvent) (hauth : client.authorized = true)
    (hne : data.account_id ≠ client.account_id) :
    ConnectionHandler.handle_player_data ar st client data requests events =
      .error .spoofedAccountId ∧
    ConnectionHandler.on_player_data_message ar st client data requests events =
      { state := st, frame := none, warned := true, disconnected := false } := by
  have h1 : ConnectionHandler.handle_player_data ar st client data requests events =
      .error .spoofedAccountId := by
    simp [ConnectionHandler.handle_player_data, hauth, hne]
  exact ⟨h1, by simp [ConnectionHandler.on_player_data_message, h1]⟩

/-- Witness for C8: account 2 spoofed inside the data of client 1. -/
theorem player_data_spoof_rejected_witness :
    ConnectionHandler.handle_player_data arZero ⟨[], [], []⟩ ⟨1, true, none⟩
      ⟨2, 0⟩ [] [] = .error .spoofedAccountId ∧
    ConnectionHandler.on_player_data_message arZero ⟨[], [], []⟩ ⟨1, true, none⟩
      ⟨2, 0⟩ [] [] =
      { state := ⟨[], [], []⟩, frame := none, warned := true, disconnected := false } :=
  player_data_spoof_rejected arZero ⟨[], [], []⟩ ⟨1, true, none⟩ ⟨2, 0⟩ [] []
    (by decide) (by decide)

theorem remove_from_session_lookup_ne (st : ServerState) (aid : Int)
    (oldSid sid : Nat) (hne : oldSid ≠ sid) :
    mapLookup (remove_from_session st aid oldSid).sessions sid =
      mapLookup st.sessions sid := by
  unfold remove_from_session
  cases h : mapLookup st.sessions oldSid with
  | none => rfl
  | some sess =>
    by_cases he : ((sess.remove_player aid).players).isEmpty <;>
      simp [he, mapLookup_remove_ne _ _ _ hne, mapLookup_insert_ne _ _ _ _ hne]

/-- C7: handle_join_session for an authorized client. A nonzero room
id requires a locally known room (else JoinSessionFailed(InvalidRoom))
whose nonzero passcode must match (else
JoinSessionFailed(InvalidPasscode)); both failures leave the server
state and the client's session membership untouched. A zero room id
performs no passcode check (the outcome does not depend on the
passcode), always succeeds, and a freshly created session carries
owner 0 and the requested platformer flag. -/
theorem join_session_spec (roomIdOf : Nat → Nat) (st : ServerState)
    (client : Client) (sid passcode : Nat) (platformer : Bool)
    (hauth : client.authorized = true) :
    (roomIdOf sid ≠ 0 → mapLookup st.all_rooms (roomIdOf sid) = none →
      ConnectionHandler.handle_join_session roomIdOf st client sid passcode platformer =
        .ok ⟨st, client, some .invalidRoom⟩) ∧
    (∀ room, roomIdOf sid ≠ 0 →
      mapLookup st.all_rooms (roomIdOf sid) = some room →
      room.passcode ≠ 0 → room.passcode ≠ passcode →
      ConnectionHandler.handle_join_session roomIdOf st client sid passcode platformer =
        .ok ⟨st, client, some .invalidPasscode⟩) ∧
    (roomIdOf sid = 0 →
      (∀ passcode2,
        ConnectionHandler.do_join_session roomIdOf st client sid passcode platformer =
          ConnectionHandler.do_join_session roomIdOf st client sid passcode2 platformer) ∧
      (∃ r, ConnectionHandler.do_join_session roomIdOf st client sid passcode platformer =
        .ok r) ∧
      (mapLookup st.sessions sid = none → client.session_id ≠ some sid →
        ∀ st2 client2,
          ConnectionHandler.do_join_session roomIdOf st client sid passcode platformer =
            .ok (st2, client2) →
          mapLookup st2.sessions sid =
            some ((GameSession.new sid 0 platformer).add_player client.account_id false) ∧
          client2.session_id = some sid)) := by
  refine ⟨?_, ?_, ?_⟩
  · intro hr hnone
    simp [ConnectionHandler.handle_join_session, ConnectionHandler.do_join_session,
      hauth, hr, hnone]
  · intro room hr hsome hpc hne
    simp [ConnectionHandler.handle_join_session, ConnectionHandler.do_join_session,
      hauth, hr, hsome, hpc, hne]
  · intro h0
    refine ⟨?_, ?_, ?_⟩
    · intro passcode2
      simp [ConnectionHandler.do_join_session, h0]
    · simp [ConnectionHandler.do_join_session, h0]
    · intro hfresh hnotown st2 client2 hok
      cases hold : client.session_id with
      | none =>
        simp only [ConnectionHandler.do_join_session, h0, hold, hfresh, ne_eq,
          not_true_eq_false, if_false, Option.getD_none, mapLookup_insert_self,
          Option.getD_some, Option.isSome_some, if_true, Except.ok.injEq,
          Prod.mk.injEq] at hok
        obtain ⟨hst, hcl⟩ := hok
        rw [← hst, ← hcl]
        exact ⟨mapLookup_insert_self _ _ _, rfl⟩
      | some oldSid =>
        have hnesid : oldSid ≠ sid := fun h => hnotown (by rw [hold, h])
        simp only [ConnectionHandler.do_join_session, h0, hold, hfresh, ne_eq,
          not_true_eq_false, if_false, Option.getD_none,
          remove_from_session_lookup_ne _ _ _ _ hnesid, mapLookup_insert_self,
          Option.getD_some, Option.isSome_some, if_true, Except.ok.injEq,
          Prod.mk.injEq] at hok
        obtain ⟨hst, hcl⟩ := hok
        rw [← hst, ← hcl]
        exact ⟨mapLookup_insert_self _ _ _, rfl⟩

/-- An empty server state for concrete instantiations. -/
def emptyState : ServerState := ⟨[], [], []⟩

/-- A server state knowing room 5 with passcode 9999 owned by 7. -/
def roomState : ServerState := ⟨[(5, ⟨9999, 7⟩)], [], []⟩

/-- An authorized client with account id 1 and no session. -/
def clientW : Client := ⟨1, true, none⟩

/-- Witness for C7: an unknown room yields InvalidRoom, a wrong
passcode yields InvalidPasscode (state and membership untouched), and
a public join creates an owner-0 session. -/
theorem join_session_spec_witness :
    (ConnectionHandler.handle_join_session (fun _ => 5) emptyState clientW 99 0 false =
      .ok ⟨emptyState, clientW, some .invalidRoom⟩) ∧
    (ConnectionHandler.handle_join_session (fun _ => 5) roomState clientW 99 1234 false =
      .ok ⟨roomState, clientW, some .invalidPasscode⟩) ∧
    (mapLookup (⟨[], [(99, (GameSession.new 99 0 true).add_player 1 false)], []⟩ :
        ServerState).sessions 99 =
      some ((GameSession.new 99 0 true).add_player clientW.account_id false)) := by
  refine ⟨?_, ?_, ?_⟩
  · exact (join_session_spec (fun _ => 5) emptyState clientW 99 0 false rfl).1
      (by decide) rfl
  · exact (join_session_spec (fun _ => 5) roomState clientW 99 1234 false rfl).2.1
      ⟨9999, 7⟩ (by decide) rfl (by decide) (by decide)
  · exact (((join_session_spec (fun _ => 0) emptyState clientW 99 0 true rfl).2.2 rfl).2.2
      rfl (by decide) ⟨[], [(99, (GameSession.new 99 0 true).add_player 1 false)], []⟩
      ⟨1, true, some 99⟩ (by decide)).1

/-- C3 (amended): notify_counter_change removes the item from the
authoritative counters when the value is 0 and stores it otherwise;
every participant present at the call has push_counter_change applied;
a participant whose unread-counter map holds fewer than 1024 entries
then carries the entry item to (value, fresh prio) (replacing any
prior entry for the item), while a participant already at 1024 entries
drops the change and is left unchanged. -/
theorem notify_counter_change_spec (s : GameSession) (item : Nat) (v : Int)
    (hnd : (s.counters.map Prod.fst).Nodup) :
    (v = 0 → mapLookup (s.notify_counter_change item v).counters item = none) ∧
    (v ≠ 0 → mapLookup (s.notify_counter_change item v).counters item = some v) ∧
    (∀ id, mapLookup (s.notify_counter_change item v).players id =
      (mapLookup s.players id).map (fun p => p.push_counter_change item v)) ∧
    (∀ p : GamePlayerState, p.unread_counter_values.length < 1024 →
      mapLookup (p.push_counter_change item v).unread_counter_values item =
        some ⟨v, (p.prio_counter + 1) % 18446744073709551616⟩) ∧
    (∀ p : GamePlayerState, 1024 ≤ p.unread_counter_values.length →
      p.push_counter_change item v = p) := by
  refine ⟨?_, ?_, ?_, ?_, ?_⟩
  · intro h0
    subst h0
    exact mapLookup_remove_self s.counters item hnd
  · intro hne
    simp only [GameSession.notify_counter_change, if_neg hne]
    exact mapLookup_insert_self _ _ _
  · intro id
    simp only [GameSession.notify_counter_change]
    exact mapLookup_map_value s.players (fun q => q.push_counter_change item v) id
  · intro p hlt
    have hc : ¬ 1024 ≤ p.unread_counter_values.length := by omega
    simp only [GamePlayerState.push_counter_change, if_neg hc]
    exact mapLookup_insert_self _ _ _
  · intro p hge
    simp only [GamePlayerState.push_counter_change, if_pos hge]

/-- A session with participant 1 and the authoritative counter 3 = 5. -/
def sessC3W : GameSession :=
  { GameSession.new 1 0 false with players := [(1, default)], counters := [(3, 5)] }

/-- Witness for C3 at a concrete input: notifying value 0 clears the
counter, and a below-bound participant receives the entry with the
fresh prio 1. -/
theorem notify_counter_change_spec_witness :
    mapLookup (sessC3W.notify_counter_change 3 0).counters 3 = none ∧
    mapLookup ((default : GamePlayerState).push_counter_change 3 0).unread_counter_values 3 =
      some ⟨0, 1⟩ := by
  have h := notify_counter_change_spec sessC3W 3 0 (by decide)
  exact ⟨h.1 rfl, h.2.2.2.1 default (by decide)⟩

/-- A participant whose unread-counter map is full: 1024 entries with
item ids 1..1024. -/
def fullPlayer : GamePlayerState :=
  { (default : GamePlayerState) with
    unread_counter_values := (List.range 1024).map (fun i => (i + 1, ⟨1, i⟩)) }

/-- A session holding the full participant under account id 1. -/
def fullPlayerSession : GameSession :=
  { GameSession.new 1 0 false with players := [(1, fullPlayer)] }

set_option maxRecDepth 100000 in
/-- Counterexample to C3 as stated: after notify_counter_change(0, 5)
there is a participant, present at the time of the call, whose
unread_counter_values map does not contain the entry for item 0 (their
map already held 1024 entries, so the change was dropped). -/
theorem notify_counter_change_full_cex :
    ∃ pr ∈ (fullPlayerSession.notify_counter_change 0 5).players,
      pr.1 = 1 ∧ mapLookup pr.2.unread_counter_values 0 = none := by
  decide

theorem mapInsert_length_none {κ ν : Type} [DecidableEq κ]
    (m : List (κ × ν)) (key : κ) (val : ν) (h : mapLookup m key = none) :
    (mapInsert m key val).length = m.length + 1 := by
  induction m with
  | nil => rfl
  | cons hd tl ih =>
    obtain ⟨k, v⟩ := hd
    by_cases hk : k = key
    · simp [mapLookup, hk] at h
    · simp only [mapLookup, if_neg hk] at h
      simp only [mapInsert, if_neg hk, List.length_cons, ih h]

theorem push_counter_change_state (p : GamePlayerState) (k : Nat) (v : Int) :
    (p.push_counter_change k v).state = p.state := by
  unfold GamePlayerState.push_counter_change
  split <;> rfl

theorem push_counter_change_length_le (p : GamePlayerState) (k : Nat) (v : Int)
    (h : p.unread_counter_values.length ≤ 1024) :
    (p.push_counter_change k v).unread_counter_values.length ≤ 1024 := by
  unfold GamePlayerState.push_counter_change
  by_cases hc : 1024 ≤ p.unread_counter_values.length
  · rw [if_pos hc]; exact h
  · rw [if_neg hc]
    have h2 := mapInsert_length_le p.unread_counter_values k
      ⟨v, (p.prio_counter + 1) % 18446744073709551616⟩
    show (mapInsert p.unread_counter_values k _).length ≤ 1024
    omega

theorem foldl_push_state (l : List (Nat × Int)) :
    ∀ p0 : GamePlayerState,
      (l.foldl (fun st ent => st.push_counter_change ent.1 ent.2) p0).state = p0.state := by
  induction l with
  | nil => intro p0; rfl
  | cons hd tl ih =>
    intro p0
    simp only [List.foldl_cons]
    rw [ih, push_counter_change_state]

theorem foldl_push_len_le (l : List (Nat × Int)) :
    ∀ p0 : GamePlayerState, p0.unread_counter_values.length ≤ 1024 →
      (l.foldl (fun st ent => st.push_counter_change ent.1 ent.2)
        p0).unread_counter_values.length ≤ 1024 := by
  induction l with
  | nil => intro p0 h; exact h
  | cons hd tl ih =>
    intro p0 h
    simp only [List.foldl_cons]
    exact ih _ (push_counter_change_length_le p0 hd.1 hd.2 h)

theorem foldl_push_lookup_preserved (l : List (Nat × Int)) :
    ∀ (p0 : GamePlayerState) (key : Nat), (∀ pr ∈ l, pr.1 ≠ key) →
      mapLookup ((l.foldl (fun st ent => st.push_counter_change ent.1 ent.2)
        p0)).unread_counter_values key = mapLookup p0.unread_counter_values key := by
  induction l with
  | nil => intro p0 key _; rfl
  | cons hd tl ih =>
    intro p0 key hne
    simp only [List.foldl_cons]
    rw [ih _ key (fun q hq => hne q (List.mem_cons_of_mem _ hq))]
    unfold GamePlayerState.push_counter_change
    split
    · rfl
    · exact mapLookup_insert_ne _ _ _ _ (hne hd (List.mem_cons_self _ _))

/-- The counter-seeding fold of add_player installs every pair of a
key-distinct counter list of total size at most 1024 whose keys are
fresh for the starting state. -/
theorem foldl_push_lookup (l : List (Nat × Int)) :
    ∀ p0 : GamePlayerState, (l.map Prod.fst).Nodup →
      p0.unread_counter_values.length + l.length ≤ 1024 →
      (∀ pr ∈ l, mapLookup p0.unread_counter_values pr.1 = none) →
      ∀ pr ∈ l,
        (mapLookup (l.foldl (fun st ent => st.push_counter_change ent.1 ent.2)
          p0).unread_counter_values pr.1).map UnreadValue.value = some pr.2 := by
  induction l with
  | nil =>
    intro p0 _ _ _ pr hpr
    simp at hpr
  | cons hd tl ih =>
    intro p0 hnd hlen hnone pr hpr
    obtain ⟨k, v⟩ := hd
    simp only [List.map_cons, List.nodup_cons] at hnd
    have hk0 : mapLookup p0.unread_counter_values k = none :=
      hnone (k, v) (List.mem_cons_self _ _)
    have hlt : ¬ 1024 ≤ p0.unread_counter_values.length := by
      simp only [List.length_cons] at hlen
      omega
    have hp1ucv : (p0.push_counter_change k v).unread_counter_values =
        mapInsert p0.unread_counter_values k
          ⟨v, (p0.prio_counter + 1) % 18446744073709551616⟩ := by
      unfold GamePlayerState.push_counter_change
      rw [if_neg hlt]
    have hp1len : (p0.push_counter_change k v).unread_counter_values.length =
        p0.unread_counter_values.length + 1 := by
      rw [hp1ucv]
      exact mapInsert_length_none _ _ _ hk0
    simp only [List.foldl_cons]
    rcases List.mem_cons.mp hpr with heq | hmem
    · subst heq
      rw [foldl_push_lookup_preserved tl _ k
        (fun q hq hqk => hnd.1 (by rw [← hqk]; exact List.mem_map_of_mem Prod.fst hq))]
      rw [hp1ucv, mapLookup_insert_self]
      rfl
    · apply ih (p0.push_counter_change k v) hnd.2 ?_ ?_ pr hmem
      · rw [hp1len]
        simp only [List.length_cons] at hlen
        omega
      · intro q hq
        rw [hp1ucv, mapLookup_insert_ne _ _ _ _
          (fun hkq => hnd.1 (by rw [hkq]; exact List.mem_map_of_mem Prod.fst hq))]
        exact hnone q (List.mem_cons_of_mem _ hq)

/-- C5 (amended): immediately after add_player(id, wants_hidden) the
new participant's state carries account_id = id and id sits in the
parallel id set; and provided the counter snapshot holds at most 1024
entries (the unread-map bound, with the embedding invariant of unique
map keys), the participant's unread_counter_values contains every
(item, value) pair of session.counters. -/
theorem add_player_spec (s : GameSession) (id : Int) (wh : Bool)
    (hnd : (s.counters.map Prod.fst).Nodup) (hlen : s.counters.length ≤ 1024) :
    ∃ p, mapLookup (s.add_player id wh).players id = some p ∧
      p.state.account_id = id ∧
      id ∈ (s.add_player id wh).player_ids ∧
      ∀ pr ∈ s.counters,
        (mapLookup p.unread_counter_values pr.1).map UnreadValue.value = some pr.2 := by
  have hseed := foldl_push_lookup s.counters
    ({ (default : GamePlayerState) with
       state := { (default : PlayerState) with account_id := id },
       wants_hidden := wh }) hnd
    (show (0 : Nat) + s.counters.length ≤ 1024 from by omega)
    (fun q _ => rfl)
  refine ⟨_, mapLookup_insert_self _ _ _, ?_, ?_, hseed⟩
  · rw [foldl_push_state]
  · show id ∈ (if id ∈ s.player_ids then s.player_ids else s.player_ids ++ [id])
    by_cases hmem : id ∈ s.player_ids
    · rw [if_pos hmem]; exact hmem
    · rw [if_neg hmem]; simp

/-- A session with the single authoritative counter 3 = 5. -/
def sessC5W : GameSession :=
  { GameSession.new 1 0 false with counters := [(3, 5)] }

/-- Witness for C5 at a concrete input: after account 2 joins, its
entry has account_id 2, sits in the id set, and carries counter 3 with
value 5. -/
theorem add_player_spec_witness :
    (mapLookup (sessC5W.add_player 2 false).players 2).map
        (fun p => ((mapLookup p.unread_counter_values 3).map UnreadValue.value,
          p.state.account_id)) = some (some 5, 2) ∧
      (2 : Int) ∈ (sessC5W.add_player 2 false).player_ids := by
  obtain ⟨p, hp, hacc, hmem, hall⟩ := add_player_spec sessC5W 2 false
    (by decide) (by decide)
  refine ⟨?_, hmem⟩
  rw [hp]
  show some ((mapLookup p.unread_counter_values 3).map UnreadValue.value,
    p.state.account_id) = some (some 5, 2)
  rw [hall (3, 5) (by decide), hacc]

/-- A counter snapshot of 1025 distinct items, all with value 1. -/
def bigCounters : List (Nat × Int) := (List.range 1025).map (fun i => (i, 1))

/-- A session whose authoritative counter store holds 1025 entries. -/
def bigCounterSession : GameSession :=
  { GameSession.new 1 0 false with counters := bigCounters }

/-- The player state add_player builds for account 1 of that session
(the default state seeded from the counter snapshot). -/
def seedPlayerBig : GamePlayerState :=
  bigCounters.foldl (fun st ent => st.push_counter_change ent.1 ent.2)
    { (default : GamePlayerState) with
      state := { (default : PlayerState) with account_id := 1 },
      wants_hidden := false }

set_option maxRecDepth 100000 in
/-- Counterexample to C5 as stated: with 1025 counters the seeded
unread map (bounded at 1024, drop-new) cannot contain every (item,
value) pair of session.counters. -/
theorem add_player_misses_counter :
    ¬ ∀ pr ∈ bigCounterSession.counters,
        ∀ p, mapLookup (bigCounterSession.add_player 1 false).players 1 = some p →
          (mapLookup p.unread_counter_values pr.1).isSome = true := by
  intro h
  have hlook : mapLookup (bigCounterSession.add_player 1 false).players 1 =
      some seedPlayerBig := mapLookup_insert_self _ _ _
  have hmem : ∀ i : Nat, i < 1025 →
      i ∈ seedPlayerBig.unread_counter_values.map Prod.fst := by
    intro i hi
    have hpr : ((i, (1 : Int))) ∈ bigCounterSession.counters :=
      List.mem_map_of_mem _ (List.mem_range.mpr hi)
    obtain ⟨u, hu⟩ := Option.isSome_iff_exists.mp (h _ hpr seedPlayerBig hlook)
    exact mapLookup_mem_keys _ _ _ hu
  have hlen : seedPlayerBig.unread_counter_values.length ≤ 1024 :=
    foldl_push_len_le bigCounters _
      (show ([] : List (Nat × UnreadValue)).length ≤ 1024 from by simp)
  have hsubset : List.range 1025 ⊆
      seedPlayerBig.unread_counter_values.map Prod.fst :=
    fun x hx => hmem x (List.mem_range.mp hx)
  have hple := List.Subperm.length_le
    (List.Nodup.subperm (List.nodup_range 1025) hsubset)
  rw [List.length_range, List.length_map] at hple
  omega

theorem framePlayersAux_not_mem (aid : Int) (cap : Nat) :
    ∀ (l : List (Int × GamePlayerState)) (w : Nat),
      aid ∉ (framePlayersAux aid cap l w).map PlayerState.account_id := by
  intro l
  induction l with
  | nil => intro w; simp [framePlayersAux]
  | cons hd tl ih =>
    intro w
    simp only [framePlayersAux]
    split
    · exact ih w
    · split
      · exact ih w
      · rename_i hneq
        simp only [List.map_cons, List.mem_cons]
        intro hor
        rcases hor with heq | hmem
        · exact hneq heq.symm
        · exact ih (w + 1) hmem

/-- C1: every outbound player-data frame the handler produces excludes
the sender's own account id from the encoded players list, and the
frame is delivered reliably exactly when the collected out-event list
is non-empty. -/
theorem player_data_frame_spec (ar : F32Arith) (st : ServerState) (client : Client)
    (data : PlayerState) (requests : List Int) (events : List InEvent)
    (st2 : ServerState) (frame : LevelDataFrame)
    (h : ConnectionHandler.handle_player_data ar st client data requests events =
      .ok (st2, some frame)) :
    client.account_id ∉ frame.players.map PlayerState.account_id ∧
    (frame.reliable = true ↔ frame.events ≠ []) := by
  unfold ConnectionHandler.handle_player_data at h
  by_cases hauth : client.authorized
  case neg => simp [hauth] at h
  by_cases hspoof : data.account_id ≠ client.account_id
  · simp [hauth, hspoof] at h
  · have heq : data.account_id = client.account_id := not_not.mp hspoof
    cases hsess : client.session_id.bind (fun sid => mapLookup st.sessions sid) with
    | none => simp [hauth, hspoof, hsess] at h
    | some session =>
      simp only [hauth, hspoof, hsess, not_false_eq_true, Bool.not_true,
        Except.ok.injEq, Prod.mk.injEq, if_false, ite_false, if_neg,
        Bool.false_eq_true, Option.some.injEq] at h
      obtain ⟨-, hframe⟩ := h
      subst hframe
      constructor
      · rw [← heq]
        exact framePlayersAux_not_mem data.account_id _ _ 0
      · cases hout : ((events.foldl
          (fun s e =>
            match ConnectionHandler.do_handle_event ar client s e with
            | .ok s2 => s2
            | .error _ => s) session).update_player data []).2 with
        | nil => simp [hout]
        | cons a as => simp [hout]

/-- A two-player session: accounts 1 and 2 in session 10. -/
def sessW : GameSession :=
  { GameSession.new 10 0 false with
    players := [(1, { (default : GamePlayerState) with state := ⟨1, 0⟩ }),
                (2, { (default : GamePlayerState) with state := ⟨2, 0⟩ })],
    player_ids := [1, 2] }

/-- The server state holding that session. -/
def stW : ServerState := ⟨[], [(10, sessW)], []⟩

/-- The frame account 1 receives there for an empty event stream: only
account 2 encoded, no events, unreliable. -/
def frameW : LevelDataFrame :=
  { players := [⟨2, 0⟩], display_datas := [], events := [], reliable := false }

/-- Witness for C1 at a concrete input. -/
theorem player_data_frame_spec_witness :
    (1 : Int) ∉ frameW.players.map PlayerState.account_id ∧
    (frameW.reliable = true ↔ frameW.events ≠ []) := by
  have h : ConnectionHandler.handle_player_data arZero stW ⟨1, true, some 10⟩
      ⟨1, 0⟩ [] [] = .ok (stW, some frameW) := by decide
  exact player_data_frame_spec arZero stW ⟨1, true, some 10⟩ ⟨1, 0⟩ [] [] stW frameW h

/-- The participant entry as update_player stores it back: state
replaced, the first kcv unread counter entries dropped, the first kev
FIFO events dropped. -/
def updatedPendingPlayer (s : GameSession) (state : PlayerState)
    (kcv kev : Nat) : GamePlayerState :=
  { pendingPlayer s state.account_id with
    state := state,
    unread_counter_values :=
      (pendingPlayer s state.account_id).unread_counter_values.drop kcv,
    unread_events := (pendingPlayer s state.account_id).unread_events.drop kev }

/-- Closed form of GameSession::update_player: the two drain phases
collapse to take/drop slices, counter emission, and a FIFO slice whose
size is what is left below MAX_EVENT_COUNT. -/
theorem update_player_eq (s : GameSession) (state : PlayerState)
    (init : List OutEvent) :
    s.update_player state init =
      ({ s with players :=
                  mapInsert s.players state.account_id
                    (updatedPendingPlayer s state (MAX_EVENT_COUNT - init.length)
                      (MAX_EVENT_COUNT - init.length -
                        (counterEmission s state.account_id
                          (MAX_EVENT_COUNT - init.length)).length)) },
       init ++ counterEmission s state.account_id (MAX_EVENT_COUNT - init.length) ++
         (pendingPlayer s state.account_id).unread_events.take
           (MAX_EVENT_COUNT - init.length -
             (counterEmission s state.account_id
               (MAX_EVENT_COUNT - init.length)).length)) := by
  unfold GameSession.update_player GamePlayerState.pop_counter_changes
  dsimp only []
  by_cases h1 : MAX_EVENT_COUNT - init.length = 0
  · rw [if_neg (by simp [h1])]
    dsimp only []
    rw [h1]
    have hem : counterEmission s state.account_id 0 = [] := by
      simp [counterEmission, drainedTriples, toTriples, sortByPrio, List.insertionSort]
    rw [hem]
    simp [List.take_zero, List.drop_zero, updatedPendingPlayer]
  · by_cases h2 : (pendingPlayer s state.account_id).unread_counter_values = []
    · rw [if_neg (by simp [h2])]
      dsimp only []
      have hem : counterEmission s state.account_id (MAX_EVENT_COUNT - init.length) = [] := by
        simp [counterEmission, drainedTriples, toTriples, sortByPrio, h2,
          List.insertionSort]
      rw [hem, h2]
      simp [updatedPendingPlayer, h2]
    · rw [if_pos ⟨h1, h2⟩]
      dsimp only []
      rw [show toTriples ((pendingPlayer s state.account_id).unread_counter_values.take
            (MAX_EVENT_COUNT - init.length)) =
          drainedTriples s state.account_id (MAX_EVENT_COUNT - init.length) from rfl]
      rw [show (sortByPrio (drainedTriples s state.account_id
            (MAX_EVENT_COUNT - init.length))).map (emitEvent s.has_scripting) =
          counterEmission s state.account_id (MAX_EVENT_COUNT - init.length) from rfl]
      rw [List.length_append, Nat.sub_sub]
      simp [updatedPendingPlayer]

/-- C2: update_player drains at most
MAX_EVENT_COUNT - current_out_events_len counter-change entries, emits
the drained entries sorted by prio ascending in the
scripting-dependent event form, then drains the unread-event FIFO
until MAX_EVENT_COUNT = 64 is reached or the FIFO is exhausted, never
pushing the out-event list beyond 64; the stored entry keeps the new
state with the drained slices removed. -/
theorem update_player_spec (s : GameSession) (state : PlayerState)
    (init : List OutEvent) (hinit : init.length ≤ MAX_EVENT_COUNT) :
    (s.update_player state init).2 =
      init ++ counterEmission s state.account_id (MAX_EVENT_COUNT - init.length) ++
        (pendingPlayer s state.account_id).unread_events.take
          (MAX_EVENT_COUNT - init.length -
            (counterEmission s state.account_id (MAX_EVENT_COUNT - init.length)).length) ∧
    (counterEmission s state.account_id (MAX_EVENT_COUNT - init.length)).length ≤
      MAX_EVENT_COUNT - init.length ∧
    List.Sorted prioLE
      (sortByPrio (drainedTriples s state.account_id (MAX_EVENT_COUNT - init.length))) ∧
    (sortByPrio (drainedTriples s state.account_id (MAX_EVENT_COUNT - init.length))).Perm
      (drainedTriples s state.account_id (MAX_EVENT_COUNT - init.length)) ∧
    (s.update_player state init).2.length ≤ MAX_EVENT_COUNT ∧
    ((s.update_player state init).2.length = MAX_EVENT_COUNT ∨
      (pendingPlayer s state.account_id).unread_events.length ≤
        MAX_EVENT_COUNT - init.length -
          (counterEmission s state.account_id (MAX_EVENT_COUNT - init.length)).length) ∧
    mapLookup (s.update_player state init).1.players state.account_id =
      some (updatedPendingPlayer s state (MAX_EVENT_COUNT - init.length)
        (MAX_EVENT_COUNT - init.length -
          (counterEmission s state.account_id (MAX_EVENT_COUNT - init.length)).length)) := by
  have heq := update_player_eq s state init
  have hdr_len : (drainedTriples s state.account_id
      (MAX_EVENT_COUNT - init.length)).length ≤ MAX_EVENT_COUNT - init.length := by
    simp only [drainedTriples, toTriples, List.length_map, List.length_take]
    exact Nat.min_le_left _ _
  have hem_len : (counterEmission s state.account_id
      (MAX_EVENT_COUNT - init.length)).length =
      (drainedTriples s state.account_id (MAX_EVENT_COUNT - init.length)).length := by
    simp only [counterEmission, List.length_map]
    exact (List.perm_insertionSort prioLE _).length_eq
  refine ⟨?_, ?_, ?_, ?_, ?_, ?_, ?_⟩
  · rw [heq]
  · rw [hem_len]; exact hdr_len
  · exact List.sorted_insertionSort prioLE _
  · exact List.perm_insertionSort prioLE _
  · rw [heq]
    simp only [List.length_append, List.length_take, MAX_EVENT_COUNT] at hinit hdr_len hem_len ⊢
    omega
  · by_cases hue : (pendingPlayer s state.account_id).unread_events.length ≤
        MAX_EVENT_COUNT - init.length -
          (counterEmission s state.account_id (MAX_EVENT_COUNT - init.length)).length
    · exact Or.inr hue
    · refine Or.inl ?_
      rw [heq]
      simp only [List.length_append, List.length_take,
        MAX_EVENT_COUNT] at hinit hdr_len hem_len hue ⊢
      omega
  · rw [heq]
    exact mapLookup_insert_self _ _ _

/-- A session with one participant carrying two unread counter changes
(prio order reversed relative to map order) and one unread event. -/
def sessC2W : GameSession :=
  { GameSession.new 11 0 false with
    players := [(1, { (default : GamePlayerState) with
      state := ⟨1, 0⟩,
      unread_counter_values := [(3, ⟨7, 2⟩), (5, ⟨9, 1⟩)],
      unread_events := [OutEvent.twoPlayerUnlink 4] })] }

/-- Witness for C2 at a concrete input: the two counter changes come
out sorted by prio (item 5 before item 3) as CounterChange(Set),
followed by the FIFO event, within the 64-event budget. -/
theorem update_player_spec_witness :
    (sessC2W.update_player ⟨1, 0⟩ []).2 =
      [OutEvent.counterChange ⟨5, CounterChangeType.set 9⟩,
       OutEvent.counterChange ⟨3, CounterChangeType.set 7⟩,
       OutEvent.twoPlayerUnlink 4] ∧
    (sessC2W.update_player ⟨1, 0⟩ []).2.length ≤ MAX_EVENT_COUNT := by
  have h := update_player_spec sessC2W ⟨1, 0⟩ [] (by decide)
  refine ⟨?_, h.2.2.2.2.1⟩
  rw [h.1]
  decide

/-- C6 (code bug): OutEvent::encode of a counter change with a
negative value sign-extends the i32 value to 64 bits (Rust
`val as u64`) and ORs it into the packed word, overwriting the type
and item fields; the resulting bytes are all 0xFF, and InEvent::decode
reads raw type 0xFF and rejects the stream, so the claimed
decode-encode identity fails on an in-range payload. -/
theorem counter_change_roundtrip_fails :
    OutEvent.encode (.counterChange ⟨5, CounterChangeType.set (-1)⟩) =
      .ok [255, 255, 255, 255, 255, 255, 255, 255] ∧
    InEvent.decode EVENT_COUNTER_CHANGE [255, 255, 255, 255, 255, 255, 255, 255] =
      .error .validationFailed := by
  exact ⟨by decide, by decide⟩

theorem readScriptedArgs_spec (typeByte : Nat) :
    ∀ (count i : Nat) (argBytes extra : List Nat),
      argBytes.length = 4 * count →
      readScriptedArgs typeByte count i (argBytes ++ extra) =
        .ok ((List.range count).map (fun j =>
          scriptedArg typeByte (i + j) (fromLE ((argBytes.drop (4 * j)).take 4))),
          extra) := by
  intro count
  induction count with
  | zero =>
    intro i argBytes extra hlen
    have : argBytes = [] := List.eq_nil_of_length_eq_zero (by omega)
    subst this
    rfl
  | succ c ih =>
    intro i argBytes extra hlen
    match argBytes, hlen with
    | b0 :: b1 :: b2 :: b3 :: rest, hlen =>
      have hrest : rest.length = 4 * c := by
        simp only [List.length_cons] at hlen
        omega
      have hread : readU32 ((b0 :: b1 :: b2 :: b3 :: rest) ++ extra) =
          .ok (fromLE [b0, b1, b2, b3], rest ++ extra) := by
        simp [readU32, readUInt, fromLE]
      simp only [readScriptedArgs, hread, Except.bind, Bind.bind,
        ih (i + 1) rest extra hrest, pure, Except.pure,
        List.range_succ_eq_map, List.map_cons, List.map_map,
        Except.ok.injEq, Prod.mk.injEq, List.cons.injEq]
      refine ⟨⟨?_, ?_⟩, trivial⟩
      · simp [scriptedArg]
      · apply List.map_congr_left
        intro j hj
        simp only [Function.comp]
        have hdrop : (b0 :: b1 :: b2 :: b3 :: rest).drop (4 * (j + 1)) =
            rest.drop (4 * j) := by
          have h4 : 4 * (j + 1) = 4 * j + 4 := by ring
          rw [h4]
          rfl
        rw [hdrop]
        have hi2 : i + (j + 1) = i + 1 + j := by omega
        rw [hi2]

/-- C10: for a type id in the scripted range, InEvent::decode rejects
any declared argument count above 5 (the heapless capacity) with a
validation error, and otherwise consumes the type byte plus exactly
count 4-byte arguments, each read as a float pattern when the
MSB-first bit of the type byte is 1 and as an i32 when it is 0. -/
theorem inevent_decode_scripted_spec (ty : Nat) (hty : ty < EVENT_GLOBED_BASE)
    (count typeByte : Nat) (hcount : count < 256) (htb : typeByte < 256)
    (argBytes extra rest : List Nat) :
    (5 < count → InEvent.decode ty (count :: rest) = .error .validationFailed) ∧
    (count ≤ 5 → argBytes.length = 4 * count →
      InEvent.decode ty (count :: typeByte :: (argBytes ++ extra)) =
        .ok (.scripted ty ((List.range count).map (fun j =>
          scriptedArg typeByte j (fromLE ((argBytes.drop (4 * j)).take 4)))),
          extra)) := by
  have hbase : EVENT_GLOBED_BASE = 61440 := rfl
  have e1 : EVENT_COUNTER_CHANGE = 61441 := rfl
  have e2 : EVENT_SCR_REQUEST_SCRIPT_LOGS = 61458 := rfl
  have e3 : EVENT_2P_LINK_REQUEST = 61696 := rfl
  have e4 : EVENT_2P_UNLINK = 61697 := rfl
  have e5 : EVENT_SWITCHEROO_FULL_STATE = 61952 := rfl
  have e6 : EVENT_SWITCHEROO_SWITCH = 61953 := rfl
  have hcnt : count % 256 = count := Nat.mod_eq_of_lt hcount
  have htb2 : typeByte % 256 = typeByte := Nat.mod_eq_of_lt htb
  constructor
  · intro hc5
    unfold InEvent.decode
    rw [if_neg (by omega), if_neg (by omega), if_neg (by omega), if_neg (by omega),
      if_neg (by omega), if_neg (by omega), if_pos hty]
    simp only [readU8, hcnt, Except.bind, Bind.bind]
    rw [if_pos hc5]
  · intro hc5 hlen
    unfold InEvent.decode
    rw [if_neg (by omega), if_neg (by omega), if_neg (by omega), if_neg (by omega),
      if_neg (by omega), if_neg (by omega), if_pos hty]
    simp only [readU8, hcnt, htb2, Except.bind, Bind.bind]
    rw [if_neg (by omega)]
    simp only [readScriptedArgs_spec typeByte count 0 argBytes extra hlen,
      Except.bind, Bind.bind, pure, Except.pure]
    simp [Nat.zero_add]

/-- Witness for C10: count 6 is rejected; a one-argument event with
type byte 0x80 decodes its 4 bytes as the float pattern 1. -/
theorem inevent_decode_scripted_spec_witness :
    InEvent.decode 7 [6, 9, 9] = .error .validationFailed ∧
    InEvent.decode 7 [1, 128, 1, 0, 0, 0] =
      .ok (.scripted 7 [.float 1], []) := by
  constructor
  · exact (inevent_decode_scripted_spec 7 (by decide) 6 0 (by decide) (by decide)
      [] [] [9, 9]).1 (by decide)
  · have hB := (inevent_decode_scripted_spec 7 (by decide) 1 128 (by decide)
      (by decide) [1, 0, 0, 0] [] []).2 (by decide) (by decide)
    simpa using hB

end Globed
